import Mathlib

/-!
# Verification of the users-also-buy incremental enrichment pipeline

Shallow embedding of the checkpointed pagination-and-enrichment pipeline:
`src/main.py` (the driver), `src/src/marketplacer_gateway.py` (pagination,
product mapping, category splitting) and `src/src/data_models.py` (the
`Product` and `PipelineBlobStatus` value objects).

Timestamps are modelled as natural numbers counting seconds; the upstream
GraphQL source, the annotation agent and the writeback mutation are modelled
as oracles (pure functions supplied as parameters), since the repository
treats them as external request/response collaborators.  The paging `while`
loop of `fetch_products` is embedded fuel-indexed, because the Python loop
has no termination guarantee when the source keeps returning empty pages.
-/

namespace UsersAlsoBuy

/-- Model of `Product` from `src/src/data_models.py`: the immutable snapshot
of one catalog item.  `created_date` (a `datetime` in the source) is the number of
seconds since the Unix epoch. -/
structure Product where
  id : String
  created_date : Nat
  category_lvl_1 : String
  category_lvl_2 : Option String
  category_lvl_3 : Option String
  category_lvl_4 : Option String
  brand : String
  title : String
  description : String
deriving DecidableEq

/-- Model of `PipelineBlobStatus` from `src/src/data_models.py`: the
checkpoint blob.
Both fields are timestamps in seconds. -/
structure PipelineBlobStatus where
  latest_product_datetime_updated : Nat
  latest_datetime_trigger : Nat
deriving DecidableEq

/-- The `brand` sub-object of a raw GraphQL `goldenProducts` node. -/
structure RawBrand where
  id : Option String
  name : Option String
deriving DecidableEq

/-- The `taxon` sub-object of a raw GraphQL `goldenProducts` node. -/
structure RawTaxon where
  id : Option String
  treeName : Option String
deriving DecidableEq

/-- A raw upstream node as consumed by `MarketplacerGateway._map_product`.
`id` and `createdAt` are always present in the upstream schema (and no claim
concerns their absence); `title`, `description`, `brand` and `taxon` are the
fields the mapper guards with `get`/falsy checks.  The `optionValues` payload
is dropped: `data_models.Product` does not retain it (pydantic ignores the
extra keyword) and no claim mentions it. -/
structure RawNode where
  id : String
  createdAt : Nat
  title : Option String
  description : Option String
  brand : Option RawBrand
  taxon : Option RawTaxon
deriving DecidableEq

/-- Model of the `pageInfo` object of one GraphQL page. -/
structure PageInfo where
  hasNextPage : Bool
  endCursor : Option String
deriving DecidableEq

/-- One page of the `goldenProducts` query: the payload `fetch_products`
reads (`nodes` and `pageInfo`). -/
structure Page where
  nodes : List RawNode
  pageInfo : PageInfo
deriving DecidableEq

/-- Python's `x or d` for an optional string `x`: `None` and `""` are falsy. -/
def or_else_str (o : Option String) (d : String) : String :=
  match o with
  | some s => if s = "" then d else s
  | none => d

/-- Check whether the first list is a prefix of the second. -/
def isPrefixList : List Char → List Char → Bool
  | [], _ => true
  | _ :: _, [] => false
  | a :: as, b :: bs => a = b && isPrefixList as bs

/-- Worker for `py_split`: split a character list on every non-overlapping
occurrence of `sep`, scanning left to right.  The fuel argument (called with
the length of the list) only makes the recursion structural; it never runs
out on those calls because each step consumes at least one character. -/
def split_go (sep : List Char) : Nat → List Char → List (List Char)
  | _, [] => [[]]
  | 0, s => [s]
  | fuel + 1, c :: rest =>
    if isPrefixList sep (c :: rest) then
      [] :: split_go sep fuel ((c :: rest).drop sep.length)
    else
      match split_go sep fuel rest with
      | [] => [[c]]
      | seg :: segs => (c :: seg) :: segs

/-- Python's `s.split(sep)` for a nonempty separator. -/
def py_split (s sep : String) : List String :=
  (split_go sep.data s.data.length s.data).map String.mk

/-- Python's `s.strip()`: drop whitespace from both ends. -/
def py_strip (s : String) : String :=
  ⟨(s.data.dropWhile Char.isWhitespace).reverse.dropWhile Char.isWhitespace |>.reverse⟩

/-- Python's `sep in s` for a nonempty `sep`: `s.split(sep)` has more than
one part exactly when `sep` occurs in `s`. -/
def str_contains_sub (s sep : String) : Bool :=
  (py_split s sep).length != 1

/-- Model of `MarketplacerGateway._split_categories` (identical to
`ProductsFetcher._split_categories`): split a delimited tree-name on the
first matching separator of `[" > ", " / ", "/", ">"]`, strip the parts,
drop empty ones, truncate to four and pad with `None` up to four. -/
def split_categories (tree_name : String) : List (Option String) :=
  if tree_name = "" then [none, none, none, none]
  else
    let separators := [" > ", " / ", "/", ">"]
    let parts0 : List String :=
      match separators.find? (fun sep => str_contains_sub tree_name sep) with
      | some sep => ((py_split tree_name sep).map py_strip).filter (fun p => p ≠ "")
      | none => []
    let parts1 : List String :=
      if parts0.isEmpty then
        if py_strip tree_name = "" then [] else [py_strip tree_name]
      else parts0
    let parts2 := parts1.take 4
    parts2.map some ++ List.replicate (4 - parts2.length) none

/-- Model of `MarketplacerGateway._map_product`: build a `Product` from a raw
node,
failing (a raised `ValueError` in the source) when the category information
or the title is missing. -/
def map_product (node : RawNode) : Except String Product :=
  let tree_name := or_else_str (node.taxon.bind RawTaxon.treeName) ""
  let brand_name := or_else_str (node.brand.bind RawBrand.name) "Unknown"
  match split_categories tree_name with
  | c0 :: c1 :: c2 :: c3 :: _ =>
    match c0 with
    | none => .error "Product missing category information"
    | some cat1 =>
      match node.title with
      | none => .error "Product missing title information"
      | some title =>
        .ok
          { id := node.id
            created_date := node.createdAt
            category_lvl_1 := cat1
            category_lvl_2 := c1
            category_lvl_3 := c2
            category_lvl_4 := c3
            brand := brand_name
            title := title
            description := or_else_str node.description "" }
  | _ =>
    -- unreachable: `split_categories` always returns four elements
    -- (`categories[0]` through `categories[3]` in the source)
    .error "IndexError: list index out of range"

/-- The list comprehension `[self._map_product(node) for node in nodes]`
inside `fetch_products`: maps every node left to right and propagates the
first raised `ValueError`. -/
def map_products : List RawNode → Except String (List Product)
  | [] => .ok []
  | n :: rest =>
    match map_product n with
    | .error e => .error e
    | .ok p =>
      match map_products rest with
      | .error e => .error e
      | .ok ps => .ok (p :: ps)

/-- Computation of `current_batch_size` inside the `fetch_products` loop:
`self.page_size if remaining is None else min(self.page_size, remaining)`. -/
def request_size (page_size : Nat) : Option Int → Int
  | none => (page_size : Int)
  | some r => min (page_size : Int) r

/-- Python's `not cursor` on `page_info.get("endCursor")`: `None` and the
empty string are falsy. -/
def cursor_falsy : Option String → Bool
  | none => true
  | some c => c = ""

/-- Model of `if mapped: yield mapped` — a page whose nodes map to zero
records yields no batch. -/
def batch_of (mapped : List Product) : List (List Product) :=
  if mapped.isEmpty then [] else [mapped]

/-- Model of `remaining -= len(mapped)` when a limit is in force. -/
def sub_remaining (remaining : Option Int) (k : Nat) : Option Int :=
  remaining.map (fun r => r - (k : Int))

/-- The three `break` conditions checked after a page is yielded, in source
order: the limit is exhausted (`remaining <= 0`), the source reports no next
page, or the continuation cursor is missing/empty. -/
def step_stop (remaining' : Option Int) (pi : PageInfo) : Bool :=
  (match remaining' with
   | some r => decide (r ≤ 0)
   | none => false)
    || !pi.hasNextPage || cursor_falsy pi.endCursor

/-- The result of running the generator body of
`MarketplacerGateway.fetch_products` to completion: the batches it yielded,
the exception (if any) that escaped it, and — as a ghost trace for
specification only — the `first` argument of each upstream query it issued. -/
structure FetchOutcome where
  batches : List (List Product)
  error : Option String
  requests : List Int
deriving DecidableEq

/-- The `while True` loop of `MarketplacerGateway.fetch_products`, embedded
fuel-indexed (the source loop need not terminate when the upstream keeps
returning empty pages with fresh cursors).  `q` is the upstream source:
given the continuation cursor, the requested page size `first`, and the
`createdSince`/`createdUntil` bounds, it returns one page.  Running out of
fuel simply truncates the sequence of batches. -/
def fetchLoop (q : Option String → Int → Nat → Option Nat → Page)
    (page_size : Nat) (min_date : Nat) (max_date : Option Nat) :
    Nat → Option String → Option Int → FetchOutcome
  | 0, _, _ => ⟨[], none, []⟩
  | fuel + 1, cursor, remaining =>
    let first := request_size page_size remaining
    let page := q cursor first min_date max_date
    match map_products page.nodes with
    | .error e => ⟨[], some e, [first]⟩
    | .ok mapped =>
      let remaining' := sub_remaining remaining mapped.length
      if step_stop remaining' page.pageInfo then
        ⟨batch_of mapped, none, [first]⟩
      else
        let rest := fetchLoop q page_size min_date max_date fuel
          page.pageInfo.endCursor remaining'
        ⟨batch_of mapped ++ rest.batches, rest.error, first :: rest.requests⟩

/-- Model of `MarketplacerGateway.fetch_products`: returns immediately when a limit
is given and is `<= 0`, otherwise runs the paging loop from a null cursor. -/
def fetch_products (q : Option String → Int → Nat → Option Nat → Page)
    (page_size : Nat) (min_date : Nat) (max_date : Option Nat)
    (limit : Option Int) (fuel : Nat) : FetchOutcome :=
  match limit with
  | some l =>
    if l ≤ 0 then ⟨[], none, []⟩
    else fetchLoop q page_size min_date max_date fuel none (some l)
  | none => fetchLoop q page_size min_date max_date fuel none none

/-- Total number of records across the yielded batches. -/
def total_records (bs : List (List Product)) : Nat :=
  (bs.map List.length).sum

/-- Constant `datetime.datetime(2023, 1, 1)` as seconds since the Unix epoch. -/
def epoch_2023_01_01 : Nat := 1672531200

/-- Start-bound resolution in `main`: the fixed epoch when no checkpoint
blob exists, otherwise `latest_product_datetime_updated + timedelta(seconds=1)`. -/
def resolve_start : Option PipelineBlobStatus → Nat
  | none => epoch_2023_01_01
  | some st => st.latest_product_datetime_updated + 1

/-- The `asyncio.gather` over `_generate_queries_for_product` in `main`:
annotate every record of the batch, pairing each with its queries in batch
order; with `return_exceptions` left at its default, a raised exception
propagates out of the whole gather, so one failure fails the batch. -/
def enrich_batch (annotate : Product → Except String (List String)) :
    List Product → Except String (List (Product × List String))
  | [] => .ok []
  | p :: rest =>
    match annotate p with
    | .error e => .error e
    | .ok qs =>
      match enrich_batch annotate rest with
      | .error e => .error e
      | .ok tail => .ok ((p, qs) :: tail)

/-- The sequential writeback loop in `main`:
`update_product_with_complementary_queries` for each pair, aborting on the
first raised error. -/
def writeback_batch (wb : Product → List String → Except String Unit) :
    List (Product × List String) → Except String Unit
  | [] => .ok ()
  | (p, qs) :: rest =>
    match wb p qs with
    | .error e => .error e
    | .ok _ => writeback_batch wb rest

/-- The body of `main`'s `for batch_products in ...` loop, applied to the
batches in order.  Per batch: index the batch (`batch_products[0]` /
`batch_products[-1]` raise `IndexError` on an empty list), gather the
enrichments, write every pair back, then overwrite the checkpoint blob with
`latest_product_datetime_updated = batch_products[-1].created_date` and
`latest_datetime_trigger = pipeline_trigger_datetime`.  A raised exception
ends the run with the checkpoint as last persisted. -/
def process_batches (trigger : Nat)
    (annotate : Product → Except String (List String))
    (wb : Product → List String → Except String Unit)
    (st : Option PipelineBlobStatus) :
    List (List Product) → Option PipelineBlobStatus × Option String
  | [] => (st, none)
  | batch :: rest =>
    match batch.getLast? with
    | none => (st, some "IndexError: list index out of range")
    | some lastP =>
      match enrich_batch annotate batch with
      | .error e => (st, some e)
      | .ok results =>
        match writeback_batch wb results with
        | .error e => (st, some e)
        | .ok _ =>
          process_batches trigger annotate wb
            (some ⟨lastP.created_date, trigger⟩) rest

/-- The paginator call hard-coded in `main`:
`MarketplacerGateway(page_size=2)` and
`fetch_products(min_start_date, now, limit=5)`. -/
def main_fetch (q : Option String → Int → Nat → Option Nat → Page)
    (store0 : Option PipelineBlobStatus) (now : Nat) (fuel : Nat) :
    FetchOutcome :=
  fetch_products q 2 (resolve_start store0) (some now) (some 5) fuel

/-- Model of `main` from `src/main.py`: read the checkpoint blob, resolve the start
bound, page through the window with page size 2 and limit 5, and process
each batch (enrich, write back, persist checkpoint).  Returns the final
checkpoint blob and the exception (if any) that ended the run; an exception
raised by the generator itself surfaces only after every batch it managed to
yield has been processed, matching the laziness of the `for` loop. -/
def run_main (q : Option String → Int → Nat → Option Nat → Page)
    (annotate : Product → Except String (List String))
    (wb : Product → List String → Except String Unit)
    (store0 : Option PipelineBlobStatus) (now trigger : Nat) (fuel : Nat) :
    Option PipelineBlobStatus × Option String :=
  let out := main_fetch q store0 now fuel
  let res := process_batches trigger annotate wb store0 out.batches
  (res.1, res.2 <|> out.error)

/-! ## Concrete fixtures

Used to instantiate the oracles in witnesses and counterexamples. -/

/-- A well-formed raw node with the given id and creation time. -/
def node_fix (i : String) (t : Nat) : RawNode :=
  { id := i, createdAt := t, title := some ("T" ++ i), description := some "d",
    brand := some { id := some "b", name := some "Brand" },
    taxon := some { id := some "tx", treeName := some "Cat > Sub" } }

/-- The `Product` that `map_product` yields on `node_fix i t`. -/
def prod_fix (i : String) (t : Nat) : Product :=
  { id := i, created_date := t, category_lvl_1 := "Cat",
    category_lvl_2 := some "Sub", category_lvl_3 := none,
    category_lvl_4 := none, brand := "Brand", title := "T" ++ i,
    description := "d" }

/-- A raw node lacking a title (a required field). -/
def bad_title_node : RawNode :=
  { id := "pX", createdAt := 50, title := none, description := none,
    brand := none, taxon := some { id := some "tx", treeName := some "Cat" } }

/-- Two-page source: records at times 10, 20 then 30, 40. -/
def src_two_pages : Option String → Int → Nat → Option Nat → Page :=
  fun c _ _ _ =>
    match c with
    | none =>
      { nodes := [node_fix "p1" 10, node_fix "p2" 20],
        pageInfo := { hasNextPage := true, endCursor := some "c1" } }
    | some _ =>
      { nodes := [node_fix "p3" 30, node_fix "p4" 40],
        pageInfo := { hasNextPage := false, endCursor := none } }

/-- A source honoring the requested page size: it returns a prefix of the
requested length of a fixed six-node list and always claims more pages. -/
def src_take : Option String → Int → Nat → Option Nat → Page :=
  fun _ n _ _ =>
    { nodes := [node_fix "p1" 10, node_fix "p2" 20, node_fix "p3" 30,
        node_fix "p4" 40, node_fix "p5" 50, node_fix "p6" 60].take n.toNat,
      pageInfo := { hasNextPage := true, endCursor := some "next" } }

/-- A single page holding one mappable and one unmappable node. -/
def src_bad_page : Option String → Int → Nat → Option Nat → Page :=
  fun _ _ _ _ =>
    { nodes := [node_fix "p1" 10, bad_title_node],
      pageInfo := { hasNextPage := false, endCursor := none } }

/-- A single page asserting `hasNextPage` while returning an empty
continuation cursor. -/
def src_empty_cursor : Option String → Int → Nat → Option Nat → Page :=
  fun _ _ _ _ =>
    { nodes := [node_fix "p1" 10],
      pageInfo := { hasNextPage := true, endCursor := some "" } }

/-- Annotation oracle that always succeeds. -/
def ann_ok : Product → Except String (List String) :=
  fun _ => .ok ["complementary"]

/-- Annotation oracle failing on the record with id `p1`. -/
def ann_fail_p1 : Product → Except String (List String) :=
  fun p => if p.id = "p1" then .error "annotation failed" else .ok ["complementary"]

/-- Writeback oracle that always succeeds. -/
def wb_ok : Product → List String → Except String Unit :=
  fun _ _ => .ok ()

/-- Writeback oracle failing on the record with id `p3`. -/
def wb_fail_p3 : Product → List String → Except String Unit :=
  fun p _ => if p.id = "p3" then .error "writeback failed" else .ok ()

/-! ## Helper lemmas -/

/-- `split_categories` always returns a list of exactly four elements. -/
theorem split_categories_length (t : String) :
    (split_categories t).length = 4 := by
  simp only [split_categories]
  by_cases h0 : t = ""
  · rw [if_pos h0]
    rfl
  · rw [if_neg h0]
    simp only [List.length_append, List.length_map, List.length_replicate,
      List.length_take]
    omega

/-- Successful mapping preserves the node's creation timestamp. -/
theorem map_product_created {nd : RawNode} {p : Product}
    (h : map_product nd = .ok p) : p.created_date = nd.createdAt := by
  simp only [map_product] at h
  split at h
  · split at h
    · simp at h
    · split at h
      · simp at h
      · simp only [Except.ok.injEq] at h
        subst h
        rfl
  · simp at h

/-- A successful page mapping yields one record per node. -/
theorem map_products_length {l : List RawNode} {ps : List Product}
    (h : map_products l = .ok ps) : ps.length = l.length := by
  induction l generalizing ps with
  | nil =>
    simp only [map_products, Except.ok.injEq] at h
    subst h; rfl
  | cons n rest ih =>
    cases hn : map_product n with
    | error e => simp [map_products, hn] at h
    | ok p' =>
      cases hr : map_products rest with
      | error e => simp [map_products, hn, hr] at h
      | ok ps' =>
        simp only [map_products, hn, hr, Except.ok.injEq] at h
        subst h
        simp [ih hr]

/-- Every record of a successfully mapped page comes from some node of
that page. -/
theorem map_products_mem {l : List RawNode} {ps : List Product} {p : Product}
    (h : map_products l = .ok ps) (hp : p ∈ ps) :
    ∃ nd ∈ l, map_product nd = .ok p := by
  induction l generalizing ps with
  | nil =>
    simp only [map_products, Except.ok.injEq] at h
    subst h; cases hp
  | cons n rest ih =>
    cases hn : map_product n with
    | error e => simp [map_products, hn] at h
    | ok p' =>
      cases hr : map_products rest with
      | error e => simp [map_products, hn, hr] at h
      | ok ps' =>
        simp only [map_products, hn, hr, Except.ok.injEq] at h
        subst h
        rcases List.mem_cons.mp hp with h1 | h2
        · exact ⟨n, List.mem_cons_self _ _, h1 ▸ hn⟩
        · obtain ⟨nd, hnd, hm⟩ := ih hr h2
          exact ⟨nd, List.mem_cons_of_mem _ hnd, hm⟩

/-- A batch produced by `batch_of` is never empty. -/
theorem batch_of_nonempty {mapped b : List Product} (hb : b ∈ batch_of mapped) :
    b ≠ [] := by
  simp only [batch_of] at hb
  by_cases he : mapped.isEmpty
  · rw [if_pos he] at hb; cases hb
  · rw [if_neg he] at hb
    rw [List.mem_singleton] at hb
    subst hb
    intro hc
    subst hc
    simp at he

/-- Members of a batch produced by `batch_of` are members of the mapped
page. -/
theorem batch_of_mem {mapped b : List Product} {p : Product}
    (hb : b ∈ batch_of mapped) (hp : p ∈ b) : p ∈ mapped := by
  simp only [batch_of] at hb
  by_cases he : mapped.isEmpty
  · rw [if_pos he] at hb; cases hb
  · rw [if_neg he] at hb
    rw [List.mem_singleton] at hb
    subst hb
    exact hp

/-- Every batch the paging loop yields is non-empty. -/
theorem fetchLoop_batches_nonempty (q : Option String → Int → Nat → Option Nat → Page)
    (ps mn : Nat) (mx : Option Nat) :
    ∀ fuel c r b, b ∈ (fetchLoop q ps mn mx fuel c r).batches → b ≠ [] := by
  intro fuel
  induction fuel with
  | zero => intro c r b hb; simp [fetchLoop] at hb
  | succ n ih =>
    intro c r b hb
    simp only [fetchLoop] at hb
    cases hm : map_products (q c (request_size ps r) mn mx).nodes with
    | error e => simp only [hm] at hb; simp at hb
    | ok mapped =>
      simp only [hm] at hb
      by_cases hs : step_stop (sub_remaining r mapped.length)
          (q c (request_size ps r) mn mx).pageInfo
      · rw [if_pos hs] at hb
        exact batch_of_nonempty hb
      · rw [if_neg hs] at hb
        simp only [List.mem_append] at hb
        rcases hb with h1 | h2
        · exact batch_of_nonempty h1
        · exact ih _ _ b h2

/-- When every page of the source respects the `createdSince` lower bound,
every record the paging loop yields does too. -/
theorem fetchLoop_created_ge (q : Option String → Int → Nat → Option Nat → Page)
    (ps mn : Nat) (mx : Option Nat)
    (hq : ∀ c n, ∀ nd ∈ (q c n mn mx).nodes, mn ≤ nd.createdAt) :
    ∀ fuel c r b, b ∈ (fetchLoop q ps mn mx fuel c r).batches →
      ∀ p ∈ b, mn ≤ p.created_date := by
  intro fuel
  induction fuel with
  | zero => intro c r b hb; simp [fetchLoop] at hb
  | succ n ih =>
    intro c r b hb p hp
    simp only [fetchLoop] at hb
    cases hm : map_products (q c (request_size ps r) mn mx).nodes with
    | error e => simp only [hm] at hb; simp at hb
    | ok mapped =>
      simp only [hm] at hb
      have hmem : p ∈ mapped → mn ≤ p.created_date := by
        intro hpm
        obtain ⟨nd, hnd, hok⟩ := map_products_mem hm hpm
        rw [map_product_created hok]
        exact hq c (request_size ps r) nd hnd
      by_cases hs : step_stop (sub_remaining r mapped.length)
          (q c (request_size ps r) mn mx).pageInfo
      · rw [if_pos hs] at hb
        exact hmem (batch_of_mem hb hp)
      · rw [if_neg hs] at hb
        simp only [List.mem_append] at hb
        rcases hb with h1 | h2
        · exact hmem (batch_of_mem h1 hp)
        · exact ih _ _ b h2 p hp

/-- `batch_of` yields exactly the mapped records. -/
theorem total_records_batch_of (m : List Product) :
    total_records (batch_of m) = m.length := by
  simp only [batch_of]
  by_cases he : m.isEmpty
  · rw [if_pos he]
    have : m = [] := by simpa using he
    subst this
    rfl
  · rw [if_neg he]
    simp [total_records]

/-- Record counts add up across concatenated batch lists. -/
theorem total_records_append (a b : List (List Product)) :
    total_records (a ++ b) = total_records a + total_records b := by
  simp [total_records]

/-- When each page returns at most the requested number of records, the
paging loop started with a positive remaining budget `r` yields at most `r`
records in total. -/
theorem fetchLoop_total_le (q : Option String → Int → Nat → Option Nat → Page)
    (ps mn : Nat) (mx : Option Nat)
    (hq : ∀ c n, 0 ≤ n → ((q c n mn mx).nodes.length : Int) ≤ n) :
    ∀ fuel c r, 0 < r →
      (total_records (fetchLoop q ps mn mx fuel c (some r)).batches : Int) ≤ r := by
  intro fuel
  induction fuel with
  | zero =>
    intro c r hr
    simp only [fetchLoop, total_records, List.map_nil, List.sum_nil, Nat.cast_zero]
    omega
  | succ n ih =>
    intro c r hr
    simp only [fetchLoop]
    have hfirst0 : (0 : Int) ≤ request_size ps (some r) := by
      simp only [request_size, le_min_iff]
      constructor <;> omega
    cases hm : map_products (q c (request_size ps (some r)) mn mx).nodes with
    | error e =>
      simp only [hm, total_records, List.map_nil, List.sum_nil, Nat.cast_zero]
      omega
    | ok mapped =>
      simp only [hm]
      have hlen : (mapped.length : Int) ≤ request_size ps (some r) := by
        rw [map_products_length hm]
        exact hq _ _ hfirst0
      have hminr : request_size ps (some r) ≤ r := by
        simp [request_size]
      by_cases hs : step_stop (sub_remaining (some r) mapped.length)
          (q c (request_size ps (some r)) mn mx).pageInfo
      · rw [if_pos hs]
        rw [total_records_batch_of]
        omega
      · rw [if_neg hs]
        have hr' : 0 < r - (mapped.length : Int) := by
          simp only [step_stop, sub_remaining, Option.map_some', Bool.or_eq_true,
            decide_eq_true_eq] at hs
          push_neg at hs
          exact hs.1.1
        have hrec := ih ((q c (request_size ps (some r)) mn mx).pageInfo.endCursor)
          (r - (mapped.length : Int)) hr'
        simp only [sub_remaining, Option.map_some'] at *
        rw [total_records_append, total_records_batch_of]
        push_cast
        omega

/-- Every page request issued by the loop under a positive remaining budget
`r` asks for `min(page_size, r0)` records, for the positive remaining budget
`r0 ≤ r` current at that round-trip; in particular no request is issued once
the budget is exhausted. -/
theorem fetchLoop_requests_shape (q : Option String → Int → Nat → Option Nat → Page)
    (ps mn : Nat) (mx : Option Nat) :
    ∀ fuel c r, 0 < r →
      ∀ n ∈ (fetchLoop q ps mn mx fuel c (some r)).requests,
        ∃ r0 : Int, 0 < r0 ∧ r0 ≤ r ∧ n = request_size ps (some r0) := by
  intro fuel
  induction fuel with
  | zero =>
    intro c r hr n hn
    simp [fetchLoop] at hn
  | succ m ih =>
    intro c r hr n hn
    simp only [fetchLoop] at hn
    cases hm : map_products (q c (request_size ps (some r)) mn mx).nodes with
    | error e =>
      simp only [hm] at hn
      rw [List.mem_singleton] at hn
      exact ⟨r, hr, le_refl r, hn⟩
    | ok mapped =>
      simp only [hm] at hn
      by_cases hs : step_stop (sub_remaining (some r) mapped.length)
          (q c (request_size ps (some r)) mn mx).pageInfo
      · rw [if_pos hs] at hn
        rw [List.mem_singleton] at hn
        exact ⟨r, hr, le_refl r, hn⟩
      · rw [if_neg hs] at hn
        rcases List.mem_cons.mp hn with h1 | h2
        · exact ⟨r, hr, le_refl r, h1⟩
        · have hr' : 0 < r - (mapped.length : Int) := by
            simp only [step_stop, sub_remaining, Option.map_some', Bool.or_eq_true,
              decide_eq_true_eq] at hs
            push_neg at hs
            exact hs.1.1
          simp only [sub_remaining, Option.map_some'] at h2
          obtain ⟨r0, hr0, hle, hshape⟩ := ih _ _ hr' _ h2
          exact ⟨r0, hr0, by omega, hshape⟩

/-- `fetchLoop_created_ge` lifted to `fetch_products`. -/
theorem fetch_products_created_ge (q : Option String → Int → Nat → Option Nat → Page)
    (ps mn : Nat) (mx : Option Nat) (lim : Option Int) (fuel : Nat)
    (hq : ∀ c n, ∀ nd ∈ (q c n mn mx).nodes, mn ≤ nd.createdAt) :
    ∀ b ∈ (fetch_products q ps mn mx lim fuel).batches,
      ∀ p ∈ b, mn ≤ p.created_date := by
  intro b hb
  cases lim with
  | none => exact fetchLoop_created_ge q ps mn mx hq fuel none none b hb
  | some l =>
    by_cases hl : l ≤ 0
    · simp [fetch_products, hl] at hb
    · simp only [fetch_products, if_neg hl] at hb
      exact fetchLoop_created_ge q ps mn mx hq fuel none (some l) b hb

/-- `fetchLoop_batches_nonempty` lifted to `fetch_products`. -/
theorem fetch_products_batches_nonempty (q : Option String → Int → Nat → Option Nat → Page)
    (ps mn : Nat) (mx : Option Nat) (lim : Option Int) (fuel : Nat) :
    ∀ b ∈ (fetch_products q ps mn mx lim fuel).batches, b ≠ [] := by
  intro b hb
  cases lim with
  | none => exact fetchLoop_batches_nonempty q ps mn mx fuel none none b hb
  | some l =>
    by_cases hl : l ≤ 0
    · simp [fetch_products, hl] at hb
    · simp only [fetch_products, if_neg hl] at hb
      exact fetchLoop_batches_nonempty q ps mn mx fuel none (some l) b hb

/-! ## Claims -/

/-- Claim C1: with no checkpoint blob the run's fetch window starts at the
fixed 2023-01-01 epoch; with a checkpoint at watermark `T` it starts at
`T + 1` second, strictly after `T`, so — for any source honoring the
`createdSince` lower bound the driver passes — no fetched record has
`created_date` equal to `T`. -/
theorem start_bound_excludes_watermark :
    resolve_start none = epoch_2023_01_01 ∧
    (∀ st : PipelineBlobStatus,
      resolve_start (some st) = st.latest_product_datetime_updated + 1 ∧
      st.latest_product_datetime_updated < resolve_start (some st)) ∧
    (∀ (q : Option String → Int → Nat → Option Nat → Page)
      (st : PipelineBlobStatus) (ps : Nat) (mx : Option Nat)
      (lim : Option Int) (fuel : Nat),
      (∀ c n, ∀ nd ∈ (q c n (resolve_start (some st)) mx).nodes,
        resolve_start (some st) ≤ nd.createdAt) →
      ∀ b ∈ (fetch_products q ps (resolve_start (some st)) mx lim fuel).batches,
        ∀ p ∈ b, p.created_date ≠ st.latest_product_datetime_updated) := by
  refine ⟨rfl, fun st => ⟨rfl, by simp [resolve_start]⟩, ?_⟩
  intro q st ps mx lim fuel hq b hb p hp
  have hge := fetch_products_created_ge q ps _ mx lim fuel hq b hb p hp
  simp only [resolve_start] at hge
  omega

/-- Witness for claim C1: with prior watermark 5, the record fetched at
time 10 from a bound-honoring source does not carry the watermark itself. -/
theorem start_bound_excludes_watermark_witness :
    (prod_fix "p1" 10).created_date ≠ 5 :=
  start_bound_excludes_watermark.2.2 src_two_pages ⟨5, 0⟩ 2 (some 1000) (some 5) 10
    (by
      intro c n nd hnd
      cases c <;> simp [src_two_pages, node_fix] at hnd <;>
        rcases hnd with h | h <;> subst h <;> decide)
    [prod_fix "p1" 10, prod_fix "p2" 20] (by decide)
    (prod_fix "p1" 10) (by decide)

/-- Claim C2: the checkpoint blob for a batch is written exactly when the
enrichment gather and the writeback of every (record, queries) pair of the
batch succeeded, and the persisted watermark is the `created_date` of the
last record fetched in the batch (`batch_products[-1]`); when any writeback
raises, no blob is written for the batch and the run ends with the error. -/
theorem checkpoint_advance_semantics (trigger : Nat)
    (annotate : Product → Except String (List String))
    (wb : Product → List String → Except String Unit)
    (st : Option PipelineBlobStatus) (batch : List Product)
    (rest : List (List Product)) (lastP : Product)
    (results : List (Product × List String))
    (hlast : batch.getLast? = some lastP)
    (henr : enrich_batch annotate batch = .ok results) :
    (writeback_batch wb results = .ok () →
      process_batches trigger annotate wb st (batch :: rest) =
        process_batches trigger annotate wb
          (some ⟨lastP.created_date, trigger⟩) rest) ∧
    (∀ e, writeback_batch wb results = .error e →
      process_batches trigger annotate wb st (batch :: rest) = (st, some e)) := by
  constructor
  · intro hwb
    simp only [process_batches, hlast, henr, hwb]
  · intro e hwb
    simp only [process_batches, hlast, henr, hwb]

/-- Witness for claim C2: a fully successful two-record batch persists the
watermark 20, the `created_date` of its last fetched record. -/
theorem checkpoint_advance_semantics_witness :
    process_batches 100 ann_ok wb_ok none
        [[prod_fix "p1" 10, prod_fix "p2" 20]] =
      process_batches 100 ann_ok wb_ok (some ⟨20, 100⟩) [] :=
  (checkpoint_advance_semantics 100 ann_ok wb_ok none
    [prod_fix "p1" 10, prod_fix "p2" 20] [] (prod_fix "p2" 20)
    [(prod_fix "p1" 10, ["complementary"]), (prod_fix "p2" 20, ["complementary"])]
    (by decide) (by rfl)).1 (by rfl)

/-- Counterexample to claim C3 as stated: a run over two batches whose
second batch fails writeback ends with the checkpoint advanced to the first
batch's watermark 20, not equal to the pre-run checkpoint 5. -/
theorem writeback_failure_counterexample :
    run_main src_two_pages ann_ok wb_fail_p3 (some ⟨5, 0⟩) 1000 100 10 =
      (some ⟨20, 100⟩, some "writeback failed") ∧
    (some (⟨20, 100⟩ : PipelineBlobStatus) ≠ some (⟨5, 0⟩ : PipelineBlobStatus)) := by
  constructor
  · decide
  · decide

/-- Claim C3 as amended: when writeback fails for a record of a batch, that
batch's watermark is never persisted — the run ends with the error and the
checkpoint still holds whatever was persisted before the failing batch (the
pre-run checkpoint when the first batch fails), and no later batch is
processed. -/
theorem writeback_failure_stops_checkpoint (trigger : Nat)
    (annotate : Product → Except String (List String))
    (wb : Product → List String → Except String Unit)
    (st : Option PipelineBlobStatus) (batch : List Product)
    (rest : List (List Product)) (lastP : Product)
    (results : List (Product × List String)) (e : String)
    (hlast : batch.getLast? = some lastP)
    (henr : enrich_batch annotate batch = .ok results)
    (hwb : writeback_batch wb results = .error e) :
    process_batches trigger annotate wb st (batch :: rest) = (st, some e) := by
  simp only [process_batches, hlast, henr, hwb]

/-- Witness for the amended claim C3: a batch failing writeback leaves the
checkpoint at its prior value 5 and skips the remaining batch. -/
theorem writeback_failure_stops_checkpoint_witness :
    process_batches 100 ann_ok wb_fail_p3 (some ⟨5, 0⟩)
        [[prod_fix "p3" 30, prod_fix "p4" 40], [prod_fix "p5" 50]] =
      (some ⟨5, 0⟩, some "writeback failed") :=
  writeback_failure_stops_checkpoint 100 ann_ok wb_fail_p3 (some ⟨5, 0⟩)
    [prod_fix "p3" 30, prod_fix "p4" 40] [[prod_fix "p5" 50]] (prod_fix "p4" 40)
    [(prod_fix "p3" 30, ["complementary"]), (prod_fix "p4" 40, ["complementary"])]
    "writeback failed" (by decide) (by rfl) (by rfl)

/-- Counterexample to claim C4 as stated: a page holding one mappable node
and one node lacking a title yields no batch at all — the mappable record is
not yielded — and the fetch ends with the raised `ValueError`. -/
theorem mapping_failure_counterexample :
    (fetch_products src_bad_page 2 0 (some 1000) (some 5) 10).batches = [] ∧
    (fetch_products src_bad_page 2 0 (some 1000) (some 5) 10).error =
      some "Product missing title information" := by
  constructor
  · decide
  · decide

/-- Claim C4 as amended: when any node of a page fails mapping, the raised
`ValueError` propagates out of `fetch_products`: the page yields no records
(the mappable ones included), pagination stops, and the error escapes to the
caller as a fatal pipeline error. -/
theorem mapping_failure_aborts_fetch (q : Option String → Int → Nat → Option Nat → Page)
    (ps mn : Nat) (mx : Option Nat) (fuel : Nat) (c : Option String)
    (r : Option Int) (e : String)
    (hm : map_products (q c (request_size ps r) mn mx).nodes = .error e) :
    fetchLoop q ps mn mx (fuel + 1) c r = ⟨[], some e, [request_size ps r]⟩ := by
  simp only [fetchLoop, hm]

/-- Witness for the amended claim C4: the bad page aborts the loop with the
missing-title error and no batches. -/
theorem mapping_failure_aborts_fetch_witness :
    fetchLoop src_bad_page 2 0 (some 1000) 10 none (some 5) =
      ⟨[], some "Product missing title information", [2]⟩ :=
  mapping_failure_aborts_fetch src_bad_page 2 0 (some 1000) 9 none (some 5)
    "Product missing title information" (by rfl)

/-- Counterexample to claim C5 as stated: when annotation fails for one
record of a two-record batch, the gather evaluates to the bare error — not
to a list pairing the error with that record — and the batch is processed
to `(unchanged checkpoint, error)`: no enrichment result of the other
record reaches writeback. -/
theorem annotation_failure_counterexample :
    enrich_batch ann_fail_p1 [prod_fix "p1" 10, prod_fix "p2" 20] =
      .error "annotation failed" ∧
    process_batches 100 ann_fail_p1 wb_ok (some ⟨5, 0⟩)
        [[prod_fix "p1" 10, prod_fix "p2" 20]] =
      (some ⟨5, 0⟩, some "annotation failed") := by
  constructor
  · rfl
  · decide

/-- Claim C5 as amended: a failing annotation call for any record
propagates out of the batch's `asyncio.gather` (default
`return_exceptions=False`): enrichment of the whole batch fails, no record
of the batch is written back, and the run ends with the error without
persisting the batch's watermark. -/
theorem annotation_failure_aborts_batch (trigger : Nat)
    (annotate : Product → Except String (List String))
    (wb : Product → List String → Except String Unit)
    (st : Option PipelineBlobStatus) (batch : List Product)
    (rest : List (List Product)) (lastP : Product) (e : String)
    (hlast : batch.getLast? = some lastP)
    (henr : enrich_batch annotate batch = .error e) :
    process_batches trigger annotate wb st (batch :: rest) = (st, some e) := by
  simp only [process_batches, hlast, henr]

/-- Witness for the amended claim C5: one failing annotation aborts the run
before any checkpoint is written. -/
theorem annotation_failure_aborts_batch_witness :
    process_batches 100 ann_fail_p1 wb_ok none
        [[prod_fix "p1" 10, prod_fix "p2" 20], [prod_fix "p3" 30]] =
      (none, some "annotation failed") :=
  annotation_failure_aborts_batch 100 ann_fail_p1 wb_ok none
    [prod_fix "p1" 10, prod_fix "p2" 20] [[prod_fix "p3" 30]] (prod_fix "p2" 20)
    "annotation failed" (by decide) (by rfl)

/-- Claim C6: category extraction yields `[A,B,C,null]` for `"A > B > C"`,
`[A,B,null,null]` for `"A/B"`, `[A,null,null,null]` for `"A"`, and
`[null,null,null,null]` for `""`, and the result always has exactly four
elements. -/
theorem split_categories_spec :
    split_categories "A > B > C" = [some "A", some "B", some "C", none] ∧
    split_categories "A/B" = [some "A", some "B", none, none] ∧
    split_categories "A" = [some "A", none, none, none] ∧
    split_categories "" = [none, none, none, none] ∧
    ∀ t : String, (split_categories t).length = 4 :=
  ⟨by decide, by decide, by decide, by decide, split_categories_length⟩

/-- Claim C7: a non-positive item limit yields no batches; for a positive
limit `L`, provided each page returns at most the requested number of
records, the total number of records yielded is at most `L`; and every page
request asks for `min(page_size, r0)` records for the positive remaining
budget `r0 ≤ L` current at that round-trip — in particular no request is
made once the limit is exhausted. -/
theorem fetch_products_limit_behaviour (q : Option String → Int → Nat → Option Nat → Page)
    (ps mn : Nat) (mx : Option Nat) (L : Int) (fuel : Nat) :
    (L ≤ 0 → fetch_products q ps mn mx (some L) fuel = ⟨[], none, []⟩) ∧
    (0 < L → (∀ c n, 0 ≤ n → ((q c n mn mx).nodes.length : Int) ≤ n) →
      (total_records (fetch_products q ps mn mx (some L) fuel).batches : Int) ≤ L) ∧
    (0 < L → ∀ n ∈ (fetch_products q ps mn mx (some L) fuel).requests,
      ∃ r0 : Int, 0 < r0 ∧ r0 ≤ L ∧ n = request_size ps (some r0)) := by
  refine ⟨fun hL => ?_, fun hL hq => ?_, fun hL n hn => ?_⟩
  · simp only [fetch_products]
    rw [if_pos hL]
  · simp only [fetch_products, if_neg (by omega : ¬ L ≤ 0)]
    exact fetchLoop_total_le q ps mn mx hq fuel none L hL
  · simp only [fetch_products, if_neg (by omega : ¬ L ≤ 0)] at hn
    exact fetchLoop_requests_shape q ps mn mx fuel none L hL n hn

/-- Witness for claim C7: a limit of `-1` yields nothing; with limit 3 over
a size-respecting source at most 3 records come back, and the issued request
of size 2 is `min(page_size, r0)` for a positive remaining budget `r0 ≤ 3`. -/
theorem fetch_products_limit_behaviour_witness :
    fetch_products src_take 2 0 (some 1000) (some (-1)) 5 = ⟨[], none, []⟩ ∧
    (total_records (fetch_products src_take 2 0 (some 1000) (some 3) 5).batches : Int) ≤ 3 ∧
    (∃ r0 : Int, 0 < r0 ∧ r0 ≤ 3 ∧ (2 : Int) = request_size 2 (some r0)) :=
  ⟨(fetch_products_limit_behaviour src_take 2 0 (some 1000) (-1) 5).1 (by decide),
   (fetch_products_limit_behaviour src_take 2 0 (some 1000) 3 5).2.1 (by decide)
     (fun c n hn => by simp [src_take, List.length_take]; omega),
   (fetch_products_limit_behaviour src_take 2 0 (some 1000) 3 5).2.2 (by decide)
     2 (by decide)⟩

/-- Claim C8: a page asserting `hasNextPage` while returning a missing or
empty continuation cursor terminates pagination right after its mapped
records are yielded, without an error and without a further request. -/
theorem empty_cursor_terminates (q : Option String → Int → Nat → Option Nat → Page)
    (ps mn : Nat) (mx : Option Nat) (fuel : Nat) (c : Option String)
    (r : Option Int) (mapped : List Product)
    (hm : map_products (q c (request_size ps r) mn mx).nodes = .ok mapped)
    (_hnext : (q c (request_size ps r) mn mx).pageInfo.hasNextPage = true)
    (hcur : cursor_falsy (q c (request_size ps r) mn mx).pageInfo.endCursor = true) :
    fetchLoop q ps mn mx (fuel + 1) c r =
      ⟨batch_of mapped, none, [request_size ps r]⟩ := by
  simp only [fetchLoop, hm]
  rw [if_pos]
  simp [step_stop, hcur]

/-- Witness for claim C8: a page with `hasNextPage = true` and an empty
cursor yields its single record and stops with no error. -/
theorem empty_cursor_terminates_witness :
    fetchLoop src_empty_cursor 2 0 (some 1000) 4 none (some 5) =
      ⟨[[prod_fix "p1" 10]], none, [2]⟩ :=
  empty_cursor_terminates src_empty_cursor 2 0 (some 1000) 3 none (some 5)
    [prod_fix "p1" 10] (by rfl) (by rfl) (by rfl)

/-- Claim C9: every batch `fetch_products` yields is non-empty, so the
driver's `batch_products[0]` and `batch_products[-1]` accesses (modelled by
`head?` and `getLast?`) always find an element. -/
theorem yielded_batches_nonempty (q : Option String → Int → Nat → Option Nat → Page)
    (ps mn : Nat) (mx : Option Nat) (lim : Option Int) (fuel : Nat) :
    ∀ b ∈ (fetch_products q ps mn mx lim fuel).batches,
      b ≠ [] ∧ b.head?.isSome ∧ b.getLast?.isSome := by
  intro b hb
  have hne := fetch_products_batches_nonempty q ps mn mx lim fuel b hb
  refine ⟨hne, ?_, ?_⟩
  · cases b with
    | nil => exact absurd rfl hne
    | cons a t => rfl
  · rw [List.getLast?_isSome]
    exact hne

/-- Witness for claim C9: the single batch of the empty-cursor source is
non-empty and indexable at both ends. -/
theorem yielded_batches_nonempty_witness :
    [prod_fix "p1" 10] ≠ [] ∧
    ([prod_fix "p1" 10] : List Product).head?.isSome ∧
    ([prod_fix "p1" 10] : List Product).getLast?.isSome :=
  yielded_batches_nonempty src_empty_cursor 2 0 (some 1000) (some 5) 4
    [prod_fix "p1" 10] (by decide)

/-- Claim C10: the entry point always pages with the hard-coded page size 2
and item limit 5, so — for any source returning at most the requested number
of records per page — a run fetches at most 5 records in total and never
requests more than 2 records in one round-trip. -/
theorem main_hardcoded_bounds (q : Option String → Int → Nat → Option Nat → Page)
    (store0 : Option PipelineBlobStatus) (now : Nat) (fuel : Nat)
    (hq : ∀ c n, 0 ≤ n →
      ((q c n (resolve_start store0) (some now)).nodes.length : Int) ≤ n) :
    (total_records (main_fetch q store0 now fuel).batches : Int) ≤ 5 ∧
    ∀ n ∈ (main_fetch q store0 now fuel).requests, n ≤ 2 := by
  constructor
  · simp only [main_fetch, fetch_products, if_neg (by omega : ¬ (5 : Int) ≤ 0)]
    exact fetchLoop_total_le q 2 _ _ hq fuel none 5 (by omega)
  · intro n hn
    simp only [main_fetch, fetch_products, if_neg (by omega : ¬ (5 : Int) ≤ 0)] at hn
    obtain ⟨r0, hr0, _, hshape⟩ :=
      fetchLoop_requests_shape q 2 _ _ fuel none 5 (by omega) n hn
    subst hshape
    simp only [request_size]
    omega

/-- Witness for claim C10: a fresh run over the size-respecting six-record
source fetches at most 5 records. -/
theorem main_hardcoded_bounds_witness :
    (total_records (main_fetch src_take none 1000 10).batches : Int) ≤ 5 :=
  (main_hardcoded_bounds src_take none 1000 10
    (fun c n hn => by simp [src_take, List.length_take]; omega)).1

end UsersAlsoBuy
